import Mathlib

/-
Shallow embedding of the TLS crypto core of the repository
(tls_crypto.c: cipher-suite negotiation, master-secret and key-block
derivation, directional key assignment) and of the child-SA rekey
hand-off described by child_sa.h.  Byte strings are modelled as
List Nat; machine enums become Lean inductives; the global crypto
factory (lib->crypto) becomes an explicit crypto_factory_t record.
-/

namespace TlsCrypto

/-- Integrity (MAC) algorithm identifiers, the subset appearing in
tls_crypto.c plus a catch-all for algorithms the catalog does not map. -/
inductive integrity_algorithm_t where
  | AUTH_HMAC_MD5_128
  | AUTH_HMAC_SHA1_160
  | AUTH_HMAC_SHA2_256_256
  | AUTH_OTHER
deriving DecidableEq, Repr

/-- Encryption algorithm identifiers used by the suite table. -/
inductive encryption_algorithm_t where
  | ENCR_NULL
  | ENCR_AES_CBC
  | ENCR_3DES
  | ENCR_OTHER
deriving DecidableEq, Repr

/-- Hash algorithm identifiers used by the suite table. -/
inductive hash_algorithm_t where
  | HASH_MD5
  | HASH_SHA1
  | HASH_SHA256
deriving DecidableEq, Repr

/-- Pseudo random function identifiers used by the suite table. -/
inductive pseudo_random_function_t where
  | PRF_HMAC_MD5
  | PRF_HMAC_SHA1
  | PRF_HMAC_SHA2_256
deriving DecidableEq, Repr

open integrity_algorithm_t encryption_algorithm_t
open hash_algorithm_t pseudo_random_function_t

/-- Cipher-suite identifiers as their registered 16-bit code points. -/
def TLS_NULL_WITH_NULL_NULL : Nat := 0x00
def TLS_RSA_WITH_NULL_MD5 : Nat := 0x01
def TLS_RSA_WITH_NULL_SHA : Nat := 0x02
def TLS_RSA_WITH_3DES_EDE_CBC_SHA : Nat := 0x0A
def TLS_RSA_WITH_AES_128_CBC_SHA : Nat := 0x2F
def TLS_RSA_WITH_AES_256_CBC_SHA : Nat := 0x35
def TLS_RSA_WITH_NULL_SHA256 : Nat := 0x3B
def TLS_RSA_WITH_AES_128_CBC_SHA256 : Nat := 0x3C

/-- TLS protocol version code points, as in tls.h. -/
def TLS_1_0 : Nat := 0x0301
def TLS_1_1 : Nat := 0x0302
def TLS_1_2 : Nat := 0x0303

/-- One row of the static suite_algs table: suite identifier and the
algorithm tuple it implies. -/
structure suite_algs_t where
  suite : Nat
  hash : hash_algorithm_t
  prf : pseudo_random_function_t
  mac : integrity_algorithm_t
  encr : encryption_algorithm_t
  encr_size : Nat
deriving DecidableEq, Repr

/-- The static suite_algs table of tls_crypto.c, row for row. -/
def suite_algs : List suite_algs_t :=
  [ ⟨TLS_RSA_WITH_NULL_MD5, HASH_MD5, PRF_HMAC_MD5,
     AUTH_HMAC_MD5_128, ENCR_NULL, 0⟩,
    ⟨TLS_RSA_WITH_NULL_SHA, HASH_SHA1, PRF_HMAC_SHA1,
     AUTH_HMAC_SHA1_160, ENCR_NULL, 0⟩,
    ⟨TLS_RSA_WITH_NULL_SHA256, HASH_SHA256, PRF_HMAC_SHA2_256,
     AUTH_HMAC_SHA2_256_256, ENCR_NULL, 0⟩,
    ⟨TLS_RSA_WITH_AES_128_CBC_SHA, HASH_SHA1, PRF_HMAC_SHA1,
     AUTH_HMAC_SHA1_160, ENCR_AES_CBC, 16⟩,
    ⟨TLS_RSA_WITH_AES_256_CBC_SHA, HASH_SHA1, PRF_HMAC_SHA1,
     AUTH_HMAC_SHA1_160, ENCR_AES_CBC, 32⟩,
    ⟨TLS_RSA_WITH_3DES_EDE_CBC_SHA, HASH_SHA1, PRF_HMAC_SHA1,
     AUTH_HMAC_SHA1_160, ENCR_3DES, 0⟩,
    ⟨TLS_RSA_WITH_AES_128_CBC_SHA256, HASH_SHA256, PRF_HMAC_SHA2_256,
     AUTH_HMAC_SHA2_256_256, ENCR_AES_CBC, 16⟩ ]

/-- find_suite: linear search of the suite_algs table. -/
def find_suite (suite : Nat) : Option suite_algs_t :=
  suite_algs.find? (fun a => a.suite == suite)

/-- The algorithm registry (lib->crypto): which signers, crypters and
PRFs it can instantiate, and the enumeration order of its signer and
crypter algorithm identifiers. -/
structure crypto_factory_t where
  signer_avail : integrity_algorithm_t → Bool
  crypter_avail : encryption_algorithm_t → Nat → Bool
  prf10_avail : Bool
  prf12_avail : pseudo_random_function_t → Bool
  macs : List integrity_algorithm_t
  encrs : List encryption_algorithm_t

/-- create_ciphers: looks the suite up in the table, then requires the
version-selected PRF, the signer (created for both directions with the
same algorithm) and, unless the suite uses ENCR_NULL, the crypter to be
instantiable; returns whether every construction step succeeded. -/
def create_ciphers (reg : crypto_factory_t) (ver : Nat) (suite : Nat) : Bool :=
  match find_suite suite with
  | none => false
  | some algs =>
      (if ver < TLS_1_2 then reg.prf10_avail else reg.prf12_avail algs.prf) &&
      reg.signer_avail algs.mac &&
      (algs.encr == ENCR_NULL || reg.crypter_avail algs.encr algs.encr_size)

/-- Inner loop of select_cipher_suite over the peer-offered list for one
local suite s: every offered entry equal to s triggers a create_ciphers
attempt; returns whether one succeeded together with the number of
create_ciphers invocations made. -/
def inner_loop (reg : crypto_factory_t) (ver : Nat) (s : Nat) :
    List Nat → Bool × Nat
  | [] => (false, 0)
  | p :: rest =>
      if s == p then
        if create_ciphers reg ver s then (true, 1)
        else
          let r := inner_loop reg ver s rest
          (r.1, r.2 + 1)
      else inner_loop reg ver s rest

/-- Outer loop of select_cipher_suite over the local preference list:
returns the first local suite for which the inner loop succeeds (none
when no suite survives), together with the total number of
create_ciphers invocations. -/
def select_loop (reg : crypto_factory_t) (ver : Nat) :
    List Nat → List Nat → Option Nat × Nat
  | [], _ => (none, 0)
  | s :: rest, peer =>
      let r := inner_loop reg ver s peer
      if r.1 then (some s, r.2)
      else
        let q := select_loop reg ver rest peer
        (q.1, r.2 + q.2)

/-- The mutable fields of private_tls_crypto_t the selection claims
touch: the local suite list and the stored selected suite. -/
structure private_tls_crypto_t where
  suites : List Nat
  suite : Nat
deriving DecidableEq, Repr

/-- select_cipher_suite: runs the two loops; on success stores the
selected suite in this->suite and returns it, otherwise returns 0 and
leaves the state untouched. -/
def select_cipher_suite (reg : crypto_factory_t) (ver : Nat)
    (this : private_tls_crypto_t) (peer : List Nat) :
    private_tls_crypto_t × Nat :=
  match (select_loop reg ver this.suites peer).1 with
  | some s => ({ this with suite := s }, s)
  | none => (this, 0)

/-- Suites inserted for a MAC algorithm alone (NULL-encryption suites),
first switch of build_cipher_suite_list. -/
def suites_for_mac (mac : integrity_algorithm_t) : List Nat :=
  match mac with
  | AUTH_HMAC_SHA1_160 => [TLS_RSA_WITH_NULL_SHA]
  | AUTH_HMAC_SHA2_256_256 => [TLS_RSA_WITH_NULL_SHA256]
  | AUTH_HMAC_MD5_128 => [TLS_RSA_WITH_NULL_MD5]
  | _ => []

/-- Suites inserted for a MAC and encryption algorithm pair, second
switch of build_cipher_suite_list; the SHA-256 AES branch inserts
TLS_RSA_WITH_AES_128_CBC_SHA256 twice, exactly as the source does. -/
def suites_for_mac_encr (mac : integrity_algorithm_t)
    (encr : encryption_algorithm_t) : List Nat :=
  match encr, mac with
  | ENCR_AES_CBC, AUTH_HMAC_SHA1_160 =>
      [TLS_RSA_WITH_AES_128_CBC_SHA, TLS_RSA_WITH_AES_256_CBC_SHA]
  | ENCR_AES_CBC, AUTH_HMAC_SHA2_256_256 =>
      [TLS_RSA_WITH_AES_128_CBC_SHA256, TLS_RSA_WITH_AES_128_CBC_SHA256]
  | ENCR_3DES, AUTH_HMAC_SHA1_160 =>
      [TLS_RSA_WITH_3DES_EDE_CBC_SHA]
  | _, _ => []

/-- Inner while loop over the crypter enumerator for one MAC. -/
def encr_loop (mac : integrity_algorithm_t) :
    List encryption_algorithm_t → List Nat
  | [] => []
  | e :: es => suites_for_mac_encr mac e ++ encr_loop mac es

/-- Outer while loop over the signer enumerator: the supported array of
build_cipher_suite_list before duplicate removal. -/
def build_supported (macs : List integrity_algorithm_t)
    (encrs : List encryption_algorithm_t) : List Nat :=
  match macs with
  | [] => []
  | m :: ms => suites_for_mac m ++ encr_loop m encrs ++ build_supported ms encrs

/-- The duplicate-removal pass of build_cipher_suite_list: keeps an
entry only when the inner scan finds no match in the unique array. -/
def remove_duplicates (l : List Nat) : List Nat :=
  l.foldl (fun u s => if s ∈ u then u else u ++ [s]) []

/-- build_cipher_suite_list: enumerate, expand, deduplicate. -/
def build_cipher_suite_list (reg : crypto_factory_t) : List Nat :=
  remove_duplicates (build_supported reg.macs reg.encrs)

/-- The two PRF labels derive_master_secret passes to get_bytes,
as an enumeration so that traces stay first-order data. -/
inductive TlsLabel where
  | master_secret
  | key_expansion
deriving DecidableEq, Repr

/-- Abstract PRF expansion: key, label, seed and requested length to
output bytes.  tls_prf_t is outside the sources, so only the shape of
the calls is modelled; length correctness is a hypothesis where needed. -/
def Prf : Type := List Nat → TlsLabel → List Nat → Nat → List Nat

/-- One get_bytes invocation recorded by the derivation trace. -/
structure PrfCall where
  key : List Nat
  lab : TlsLabel
  seed : List Nat
  len : Nat
deriving DecidableEq, Repr

/-- Derivation parameters of derive_master_secret that come from the
surrounding object: role, negotiated version, whether a crypter exists
(ENCR_NULL suites have none), and the primitive key and block sizes. -/
structure derive_params_t where
  is_server : Bool
  version : Nat
  has_crypter : Bool
  signer_key_size : Nat
  crypter_key_size : Nat
  crypter_block_size : Nat
deriving DecidableEq, Repr

/-- mks: MAC key size taken from the signer instance. -/
def mksOf (p : derive_params_t) : Nat := p.signer_key_size

/-- eks: encryption key size, 0 when the suite has no crypter. -/
def eksOf (p : derive_params_t) : Nat :=
  if p.has_crypter then p.crypter_key_size else 0

/-- ivs: IV size, the crypter block size below TLS 1.2, else 0. -/
def ivsOf (p : derive_params_t) : Nat :=
  if p.has_crypter && decide (p.version < TLS_1_2) then p.crypter_block_size
  else 0

/-- The key assignment derive_master_secret leaves behind: the keys
loaded into the directional signers and crypters and the stored IVs
(none when the suite has no crypter, respectively no fixed IVs). -/
structure key_assignment_t where
  signer_in : List Nat
  signer_out : List Nat
  crypter_in : Option (List Nat)
  crypter_out : Option (List Nat)
  iv_in : Option (List Nat)
  iv_out : Option (List Nat)
deriving DecidableEq, Repr

/-- Everything observable about one derive_master_secret run: the key
assignment, the get_bytes trace, and the final contents of the local
master buffer and of the caller-owned premaster buffer. -/
structure derive_result_t where
  assignment : key_assignment_t
  calls : List PrfCall
  master_final : List Nat
  premaster_final : List Nat
deriving DecidableEq, Repr

/-- derive_master_secret, line for line: one expansion keyed by the
premaster with label master_secret and seed client_random ++
server_random into a 48 byte master; the master is loaded into the PRF
and the master buffer zeroed; one expansion with label key_expansion and
seed server_random ++ client_random into a block of (mks+eks+ivs)*2
bytes; the block is sliced front to back and assigned by role.  set_key
of the external PRF reads its argument and does not write it, so the
premaster buffer is returned unchanged. -/
def derive_master_secret (prfFn : Prf) (p : derive_params_t)
    (premaster client_random server_random : List Nat) : derive_result_t :=
  let seed1 := client_random ++ server_random
  let master := prfFn premaster TlsLabel.master_secret seed1 48
  let mks := mksOf p
  let eks := eksOf p
  let ivs := ivsOf p
  let seed2 := server_random ++ client_random
  let blockLen := (mks + eks + ivs) * 2
  let block := prfFn master TlsLabel.key_expansion seed2 blockLen
  let client_write := block.take mks
  let block1 := block.drop mks
  let server_write := block1.take mks
  let block2 := block1.drop mks
  let signers :=
    if p.is_server then (client_write, server_write)
    else (server_write, client_write)
  let rest :=
    if p.has_crypter then
      let cw := block2.take eks
      let block3 := block2.drop eks
      let sw := block3.take eks
      let block4 := block3.drop eks
      let crypters :=
        if p.is_server then (some cw, some sw) else (some sw, some cw)
      if ivs ≠ 0 then
        let cwi := block4.take ivs
        let block5 := block4.drop ivs
        let swi := block5.take ivs
        let ivsPair :=
          if p.is_server then (some cwi, some swi) else (some swi, some cwi)
        (crypters.1, crypters.2, ivsPair.1, ivsPair.2)
      else (crypters.1, crypters.2, none, none)
    else (none, none, none, none)
  { assignment :=
      { signer_in := signers.1
        signer_out := signers.2
        crypter_in := rest.1
        crypter_out := rest.2.1
        iv_in := rest.2.2.1
        iv_out := rest.2.2.2 }
    calls :=
      [ ⟨premaster, TlsLabel.master_secret, seed1, 48⟩,
        ⟨master, TlsLabel.key_expansion, seed2, blockLen⟩ ]
    master_final := List.replicate 48 0
    premaster_final := premaster }

/-- The raw key block of a run: second expansion keyed by the master. -/
def keyBlockOf (prfFn : Prf) (p : derive_params_t)
    (premaster client_random server_random : List Nat) : List Nat :=
  prfFn (prfFn premaster TlsLabel.master_secret
          (client_random ++ server_random) 48)
    TlsLabel.key_expansion (server_random ++ client_random)
    ((mksOf p + eksOf p + ivsOf p) * 2)

/-- The six key-block slices at their absolute offsets, in protocol
order: client MAC, server MAC, client key, server key, client IV,
server IV. -/
structure block_slices_t where
  client_mac : List Nat
  server_mac : List Nat
  client_key : List Nat
  server_key : List Nat
  client_iv : List Nat
  server_iv : List Nat
deriving DecidableEq, Repr

/-- Slice a block at the protocol offsets for sizes mks, eks, ivs. -/
def blockSlices (block : List Nat) (mks eks ivs : Nat) : block_slices_t :=
  { client_mac := block.take mks
    server_mac := (block.drop mks).take mks
    client_key := (block.drop (mks + mks)).take eks
    server_key := (block.drop (mks + mks + eks)).take eks
    client_iv := (block.drop (mks + mks + eks + eks)).take ivs
    server_iv := (block.drop (mks + mks + eks + eks + ivs)).take ivs }

/-- A recursive specification of duplicate removal that keeps the first
occurrence of every element: used to state that remove_duplicates
preserves first-seen order. -/
def firstSeenSpec : List Nat → List Nat
  | [] => []
  | x :: xs => x :: firstSeenSpec (xs.filter (fun y => decide (y ≠ x)))
termination_by l => l.length
decreasing_by
  simp only [List.length_cons]
  exact Nat.lt_succ_of_le (List.length_filter_le _ _)

/-- A registry exposing every algorithm of the catalog, used to
evaluate the negotiation functions on concrete inputs. -/
def full_registry : crypto_factory_t :=
  { signer_avail := fun _ => true
    crypter_avail := fun _ _ => true
    prf10_avail := true
    prf12_avail := fun _ => true
    macs := [AUTH_HMAC_SHA1_160, AUTH_HMAC_SHA2_256_256, AUTH_HMAC_MD5_128]
    encrs := [ENCR_AES_CBC, ENCR_3DES] }

/-- A registry that enumerates HMAC-SHA1 and HMAC-SHA2-256 signers but
refuses to instantiate the HMAC-SHA1 one: matching suites using it fail
construction at selection time. -/
def sha1_broken_registry : crypto_factory_t :=
  { signer_avail := fun m => m != AUTH_HMAC_SHA1_160
    crypter_avail := fun _ _ => true
    prf10_avail := true
    prf12_avail := fun _ => true
    macs := [AUTH_HMAC_SHA1_160, AUTH_HMAC_SHA2_256_256]
    encrs := [ENCR_AES_CBC] }

/-- A PRF returning the requested number of zero bytes, used to
evaluate the derivation functions on concrete inputs. -/
def zeroPrf : Prf := fun _ _ _ n => List.replicate n 0

end TlsCrypto

namespace ChildSa

/-- Modelled from the spec: child_sa.c is not among the sources, only
the interface child_sa.h.  Per the header, set_rekeyed marks this
child_sa as rekeyed because an SA which rekeys an old SA shares the
same policy, and a so marked SA does not remove its policy on teardown,
as the new SA uses it; per the spec, destroy releases policy only if
not rekeyed.  The state tracks the reqid, the rekey mark with the
reqid of the successor, and the identifier of the installed policy. -/
structure child_sa_t where
  reqid : Nat
  rekeyed : Bool
  rekey_target : Option Nat
  policy : Option Nat
deriving DecidableEq, Repr

/-- Modelled from the spec: set_rekeyed marks the SA superseded by the
SA with the given reqid; keys, SPIs and the installed policy entry are
untouched. -/
def set_rekeyed (sa : child_sa_t) (reqid : Nat) : child_sa_t :=
  { sa with rekeyed := true, rekey_target := some reqid }

/-- Modelled from the spec: destroy on the kernel policy store, given as
the list of installed policy identifiers.  A rekeyed SA removes no
policy; otherwise the policy entry of this SA, when installed, is
removed. -/
def child_destroy (sa : child_sa_t) (policies : List Nat) : List Nat :=
  if sa.rekeyed then policies
  else
    match sa.policy with
    | none => policies
    | some p => policies.filter (fun q => q != p)

end ChildSa

namespace TlsCrypto

/-- Helper: the success flag of the inner peer loop equals membership of
the local suite in the peer list conjoined with constructibility. -/
theorem inner_loop_fst (reg : crypto_factory_t) (ver : Nat) (s : Nat) :
    ∀ peer : List Nat,
      (inner_loop reg ver s peer).1 =
        (peer.contains s && create_ciphers reg ver s)
  | [] => by simp [inner_loop]
  | p :: rest => by
      by_cases h : s = p
      · subst h
        by_cases hc : create_ciphers reg ver s
        · simp [inner_loop, hc]
        · simp [inner_loop, hc, inner_loop_fst reg ver s rest]
      · simp [inner_loop, h, inner_loop_fst reg ver s rest]

/-- Helper: the suite selected by the two nested loops is the first
entry of the local list that is offered by the peer and constructible. -/
theorem select_loop_fst (reg : crypto_factory_t) (ver : Nat) :
    ∀ locals peer : List Nat,
      (select_loop reg ver locals peer).1 =
        locals.find? (fun s => peer.contains s && create_ciphers reg ver s)
  | [], _ => by simp [select_loop]
  | s :: rest, peer => by
      simp only [select_loop, List.find?]
      rw [← inner_loop_fst reg ver s peer]
      by_cases h : (inner_loop reg ver s peer).1
      · simp [h]
      · simp [h, select_loop_fst reg ver rest peer]

/-- Helper: a local suite absent from the peer list triggers no
create_ciphers call at all. -/
theorem inner_loop_not_offered (reg : crypto_factory_t) (ver : Nat) (s : Nat) :
    ∀ peer : List Nat, peer.contains s = false →
      inner_loop reg ver s peer = (false, 0)
  | [], _ => rfl
  | p :: rest, h => by
      have hc : (s == p) = false ∧ rest.contains s = false := by
        simpa [List.contains_cons] using h
      simp [inner_loop, hc.1, inner_loop_not_offered reg ver s rest hc.2]

/-- C4: suite selection iterates the local preference order as the
outer loop and the peer list as the inner loop, returning the first
local suite present in the peer list for which primitives can be
constructed; with local order MD5, SHA, SHA256 and peer offer SHA256,
SHA, the suite SHA is selected, never SHA256. -/
theorem select_local_preference (reg : crypto_factory_t) (ver : Nat) :
    (∀ locals peer : List Nat,
        (select_loop reg ver locals peer).1 =
          locals.find? (fun s => peer.contains s && create_ciphers reg ver s)) ∧
    (select_cipher_suite full_registry TLS_1_2
        ⟨[TLS_RSA_WITH_NULL_MD5, TLS_RSA_WITH_NULL_SHA,
          TLS_RSA_WITH_NULL_SHA256], 0⟩
        [TLS_RSA_WITH_NULL_SHA256, TLS_RSA_WITH_NULL_SHA]).2 =
      TLS_RSA_WITH_NULL_SHA ∧
    TLS_RSA_WITH_NULL_SHA ≠ TLS_RSA_WITH_NULL_SHA256 :=
  ⟨select_loop_fst reg ver, by decide, by decide⟩

/-- C5: when a suite matches between the local and the peer list but
primitive construction fails for it, selection continues with the next
candidate, and a later matching constructible suite is still selected. -/
theorem select_skips_failed_construction (reg : crypto_factory_t) (ver : Nat)
    (a b : Nat) (rest peer : List Nat)
    (_h1 : peer.contains a = true)
    (h2 : create_ciphers reg ver a = false)
    (h3 : (select_loop reg ver rest peer).1 = some b) :
    (select_loop reg ver (a :: rest) peer).1 = some b := by
  simp [select_loop, inner_loop_fst, h2, h3]

/-- Witness for C5: with a registry that enumerates HMAC-SHA1 but
cannot instantiate it, the SHA1 NULL suite matches first and fails
construction, and the SHA256 NULL suite is selected. -/
theorem select_skips_failed_witness :
    (select_loop sha1_broken_registry TLS_1_2
        [TLS_RSA_WITH_NULL_SHA, TLS_RSA_WITH_NULL_SHA256]
        [TLS_RSA_WITH_NULL_SHA, TLS_RSA_WITH_NULL_SHA256]).1 =
      some TLS_RSA_WITH_NULL_SHA256 :=
  select_skips_failed_construction sha1_broken_registry TLS_1_2
    TLS_RSA_WITH_NULL_SHA TLS_RSA_WITH_NULL_SHA256
    [TLS_RSA_WITH_NULL_SHA256]
    [TLS_RSA_WITH_NULL_SHA, TLS_RSA_WITH_NULL_SHA256]
    (by decide) (by decide) (by decide)

/-- C6: with no common suite between the local and the peer list,
selection returns none with zero create_ciphers invocations, and the
method returns the distinguished suite 0 with the state untouched. -/
theorem select_no_common_suite (reg : crypto_factory_t) (ver : Nat)
    (this : private_tls_crypto_t) (peer : List Nat)
    (h : ∀ s ∈ this.suites, peer.contains s = false) :
    select_loop reg ver this.suites peer = (none, 0) ∧
    select_cipher_suite reg ver this peer = (this, 0) := by
  have main : ∀ locals : List Nat, (∀ s ∈ locals, peer.contains s = false) →
      select_loop reg ver locals peer = (none, 0) := by
    intro locals
    induction locals with
    | nil => intro _; rfl
    | cons s ls ih =>
        intro hl
        have h1 : peer.contains s = false := hl s (by simp)
        have h2 := ih (fun t ht => hl t (by simp [ht]))
        simp [select_loop, inner_loop_not_offered reg ver s peer h1, h2]
  have hm := main this.suites h
  refine ⟨hm, ?_⟩
  simp [select_cipher_suite, hm]

/-- Witness for C6: local list MD5 only against peer offer SHA only. -/
theorem select_no_common_suite_witness :
    select_loop full_registry TLS_1_2 [TLS_RSA_WITH_NULL_MD5]
        [TLS_RSA_WITH_NULL_SHA] = (none, 0) ∧
    select_cipher_suite full_registry TLS_1_2
        ⟨[TLS_RSA_WITH_NULL_MD5], 0⟩ [TLS_RSA_WITH_NULL_SHA] =
      (⟨[TLS_RSA_WITH_NULL_MD5], 0⟩, 0) :=
  select_no_common_suite full_registry TLS_1_2
    ⟨[TLS_RSA_WITH_NULL_MD5], 0⟩ [TLS_RSA_WITH_NULL_SHA] (by decide)

/-- C10: the stored selected-suite field is written only when a
matching suite passes construction: a selection returning the no-suite
result leaves the state, and hence the stored suite, unchanged, while a
successful selection stores exactly the constructible matched suite. -/
theorem suite_updated_only_on_success (reg : crypto_factory_t) (ver : Nat)
    (this : private_tls_crypto_t) (peer : List Nat) :
    ((select_loop reg ver this.suites peer).1 = none →
       select_cipher_suite reg ver this peer = (this, 0)) ∧
    (∀ s, (select_loop reg ver this.suites peer).1 = some s →
       (select_cipher_suite reg ver this peer).1.suite = s ∧
       create_ciphers reg ver s = true ∧ peer.contains s = true ∧
       s ∈ this.suites) := by
  constructor
  · intro h; simp [select_cipher_suite, h]
  · intro s hs
    have hfind : this.suites.find?
        (fun t => peer.contains t && create_ciphers reg ver t) = some s := by
      rw [← select_loop_fst]; exact hs
    have hmem := List.mem_of_find?_eq_some hfind
    have hpred := List.find?_some hfind
    simp only [Bool.and_eq_true] at hpred
    exact ⟨by simp [select_cipher_suite, hs], hpred.2, hpred.1, hmem⟩

/-- Witness for C10: a matching suite whose construction fails leaves
the previously stored suite 42 in place. -/
theorem suite_update_witness :
    select_cipher_suite sha1_broken_registry TLS_1_2
        ⟨[TLS_RSA_WITH_NULL_SHA], 42⟩ [TLS_RSA_WITH_NULL_SHA] =
      (⟨[TLS_RSA_WITH_NULL_SHA], 42⟩, 0) :=
  (suite_updated_only_on_success sha1_broken_registry TLS_1_2
      ⟨[TLS_RSA_WITH_NULL_SHA], 42⟩ [TLS_RSA_WITH_NULL_SHA]).1 (by decide)

end TlsCrypto

namespace TlsCrypto

/-- Helper: folding the duplicate-removal step from an accumulator
appends exactly the first occurrences of the not-yet-seen elements. -/
theorem foldl_dedup (xs : List Nat) : ∀ acc : List Nat,
    xs.foldl (fun u s => if s ∈ u then u else u ++ [s]) acc =
      acc ++ firstSeenSpec (xs.filter (fun s => decide (s ∉ acc))) := by
  induction xs with
  | nil => intro acc; simp [firstSeenSpec]
  | cons x l ih =>
      intro acc
      by_cases hx : x ∈ acc
      · simp [List.foldl_cons, hx, List.filter_cons, ih]
      · rw [List.foldl_cons]
        simp only [hx, if_false]
        rw [ih (acc ++ [x])]
        have hA : l.filter (fun s => decide (s ∉ acc ++ [x])) =
            (l.filter (fun s => decide (s ∉ acc))).filter
              (fun y => decide (y ≠ x)) := by
          rw [List.filter_filter]
          apply List.filter_congr
          intro a _
          by_cases h1 : a = x <;> by_cases h2 : a ∈ acc <;>
            simp [h1, h2, List.mem_append]
        rw [hA]
        have hfc : (x :: l).filter (fun s => decide (s ∉ acc)) =
            x :: l.filter (fun s => decide (s ∉ acc)) := by
          simp [List.filter_cons, hx]
        rw [hfc, firstSeenSpec]
        simp only [List.append_assoc, List.singleton_append]

/-- Helper: the duplicate-removal pass keeps the first occurrence of
every element, in order. -/
theorem remove_duplicates_eq_firstSeen (l : List Nat) :
    remove_duplicates l = firstSeenSpec l := by
  unfold remove_duplicates
  rw [foldl_dedup]
  simp

/-- Helper: elements of the first-seen list come from the input. -/
theorem mem_firstSeenSpec {a : Nat} : ∀ {l : List Nat},
    a ∈ firstSeenSpec l → a ∈ l := by
  intro l
  induction l using firstSeenSpec.induct with
  | case1 => simp [firstSeenSpec]
  | case2 x xs ih =>
      rw [firstSeenSpec]
      intro h
      rcases List.mem_cons.1 h with h | h
      · simp [h]
      · have := ih h
        simp only [List.mem_filter] at this
        simp [this.1]

/-- Helper: the first-seen list has no duplicates. -/
theorem nodup_firstSeenSpec : ∀ l : List Nat, (firstSeenSpec l).Nodup := by
  intro l
  induction l using firstSeenSpec.induct with
  | case1 => simp [firstSeenSpec]
  | case2 x xs ih =>
      rw [firstSeenSpec]
      refine List.nodup_cons.2 ⟨?_, ih⟩
      intro hmem
      have := mem_firstSeenSpec hmem
      simp [List.mem_filter] at this

/-- C7: the built suite list contains each identifier at most once and
preserves first-seen order, for every registry enumeration; in the
full registry the building loop inserts TLS_RSA_WITH_AES_128_CBC_SHA256
twice into the supported array, yet it appears exactly once in the
returned list. -/
theorem build_list_unique_first_seen (reg : crypto_factory_t) :
    (build_cipher_suite_list reg).Nodup ∧
    build_cipher_suite_list reg =
      firstSeenSpec (build_supported reg.macs reg.encrs) ∧
    (build_supported full_registry.macs full_registry.encrs).count
        TLS_RSA_WITH_AES_128_CBC_SHA256 = 2 ∧
    (build_cipher_suite_list full_registry).count
        TLS_RSA_WITH_AES_128_CBC_SHA256 = 1 := by
  refine ⟨?_, ?_, by decide, by decide⟩
  · rw [build_cipher_suite_list, remove_duplicates_eq_firstSeen]
    exact nodup_firstSeenSpec _
  · rw [build_cipher_suite_list, remove_duplicates_eq_firstSeen]

/-- C1: the key assignment maps the client-write slices of the key
block to the inbound signer, crypter and IV when the local role is
server and to the outbound ones when the local role is client, and the
server-write slices to the complementary direction. -/
theorem role_mapping (prfFn : Prf) (p : derive_params_t)
    (premaster cr sr : List Nat) :
    let r := derive_master_secret prfFn p premaster cr sr
    let sl := blockSlices (keyBlockOf prfFn p premaster cr sr)
                (mksOf p) (eksOf p) (ivsOf p)
    r.assignment.signer_in =
        (if p.is_server then sl.client_mac else sl.server_mac) ∧
    r.assignment.signer_out =
        (if p.is_server then sl.server_mac else sl.client_mac) ∧
    r.assignment.crypter_in =
        (if p.has_crypter then
          some (if p.is_server then sl.client_key else sl.server_key)
         else none) ∧
    r.assignment.crypter_out =
        (if p.has_crypter then
          some (if p.is_server then sl.server_key else sl.client_key)
         else none) ∧
    r.assignment.iv_in =
        (if p.has_crypter ∧ ivsOf p ≠ 0 then
          some (if p.is_server then sl.client_iv else sl.server_iv)
         else none) ∧
    r.assignment.iv_out =
        (if p.has_crypter ∧ ivsOf p ≠ 0 then
          some (if p.is_server then sl.server_iv else sl.client_iv)
         else none) := by
  simp only [derive_master_secret, keyBlockOf, blockSlices]
  cases hs : p.is_server <;> cases hc : p.has_crypter <;>
    by_cases hiv : ivsOf p ≠ 0 <;>
      simp [hs, hc, hiv, List.drop_drop]

/-- C2: the derivation performs exactly two PRF expansions: one keyed
by the premaster with label master secret, seed client_random ++
server_random and 48 output bytes, then one keyed by the master with
label key expansion and the reversed seed server_random ++
client_random. -/
theorem derivation_trace (prfFn : Prf) (p : derive_params_t)
    (premaster cr sr : List Nat) :
    (derive_master_secret prfFn p premaster cr sr).calls =
      [ ⟨premaster, TlsLabel.master_secret, cr ++ sr, 48⟩,
        ⟨prfFn premaster TlsLabel.master_secret (cr ++ sr) 48,
         TlsLabel.key_expansion, sr ++ cr,
         (mksOf p + eksOf p + ivsOf p) * 2⟩ ] := rfl

/-- C3: when the PRF honors its length contract the key block has
length exactly 2*(mks+eks+ivs), the IV size is nonzero only below TLS
1.2, and the six slices client MAC, server MAC, client key, server key,
client IV, server IV have the stated sizes and concatenate back to the
whole block with no leftover or overrun. -/
theorem block_length_slicing (prfFn : Prf) (p : derive_params_t)
    (premaster cr sr : List Nat)
    (hlen : ∀ k lab s n, (prfFn k lab s n).length = n) :
    let block := keyBlockOf prfFn p premaster cr sr
    let sl := blockSlices block (mksOf p) (eksOf p) (ivsOf p)
    block.length = 2 * (mksOf p + eksOf p + ivsOf p) ∧
    (ivsOf p ≠ 0 → p.version < TLS_1_2) ∧
    sl.client_mac.length = mksOf p ∧
    sl.server_mac.length = mksOf p ∧
    sl.client_key.length = eksOf p ∧
    sl.server_key.length = eksOf p ∧
    sl.client_iv.length = ivsOf p ∧
    sl.server_iv.length = ivsOf p ∧
    sl.client_mac ++ sl.server_mac ++ sl.client_key ++ sl.server_key ++
      sl.client_iv ++ sl.server_iv = block := by
  have hb : (keyBlockOf prfFn p premaster cr sr).length =
      (mksOf p + eksOf p + ivsOf p) * 2 := hlen _ _ _ _
  simp only [blockSlices]
  refine ⟨by omega, ?_, ?_, ?_, ?_, ?_, ?_, ?_, ?_⟩
  · intro hiv
    unfold ivsOf at hiv
    by_cases h : p.has_crypter && decide (p.version < TLS_1_2)
    · simp only [Bool.and_eq_true, decide_eq_true_eq] at h
      exact h.2
    · simp [h] at hiv
  · simp [List.length_take]; omega
  · simp [List.length_take]; omega
  · simp [List.length_take]; omega
  · simp [List.length_take]; omega
  · simp [List.length_take]; omega
  · simp [List.length_take]; omega
  · have hlast : ((keyBlockOf prfFn p premaster cr sr).drop
        (mksOf p + mksOf p + eksOf p + eksOf p + ivsOf p)).take (ivsOf p) =
        (keyBlockOf prfFn p premaster cr sr).drop
        (mksOf p + mksOf p + eksOf p + eksOf p + ivsOf p) := by
      apply List.take_of_length_le
      simp [List.length_drop]; omega
    rw [hlast]
    simp [List.drop_take_append_drop]

/-- Witness for C3: a length-honest PRF on concrete sizes 4, 8 and 2
below TLS 1.2 yields a 28 byte key block. -/
theorem block_length_witness :
    (keyBlockOf zeroPrf ⟨true, TLS_1_0, true, 4, 8, 2⟩ [1] [2] [3]).length =
      28 :=
  (block_length_slicing zeroPrf ⟨true, TLS_1_0, true, 4, 8, 2⟩ [1] [2] [3]
    (fun k lab s n => by simp [zeroPrf])).1

/-- C8 amended: the master buffer is zeroed right after the master is
loaded into the PRF, but the premaster buffer is returned exactly as it
came in, not zeroed by the derivation step. -/
theorem master_zeroed_premaster_kept (prfFn : Prf) (p : derive_params_t)
    (premaster cr sr : List Nat) :
    (derive_master_secret prfFn p premaster cr sr).master_final =
      List.replicate 48 0 ∧
    (derive_master_secret prfFn p premaster cr sr).premaster_final =
      premaster :=
  ⟨rfl, rfl⟩

/-- C8 counterexample: deriving from the one-byte premaster 7 leaves
the premaster buffer holding 7, not the zeroed buffer the claim
requires. -/
theorem premaster_not_zeroed_cex :
    (derive_master_secret zeroPrf ⟨true, TLS_1_2, false, 4, 0, 0⟩
        [7] [] []).premaster_final ≠ List.replicate 1 0 := by decide

end TlsCrypto

namespace ChildSa

/-- C9: destroying a child SA marked rekeyed leaves the kernel policy
store untouched, so the policy the successor references survives, while
destroying an SA never marked rekeyed removes its installed policy. -/
theorem rekeyed_destroy_keeps_policy (sa : child_sa_t) (r pid : Nat)
    (k : List Nat) :
    child_destroy (set_rekeyed sa r) k = k ∧
    (sa.rekeyed = false → sa.policy = some pid →
      pid ∉ child_destroy sa k) := by
  constructor
  · simp [child_destroy, set_rekeyed]
  · intro h1 h2
    simp [child_destroy, h1, h2, List.mem_filter]

/-- Witness for C9: SA 1 rekeyed by SA 2 keeps policy 5 installed on
destroy; destroying the never-rekeyed SA 2 removes policy 5. -/
theorem rekeyed_destroy_witness :
    child_destroy (set_rekeyed ⟨1, false, none, some 5⟩ 2) [5] = [5] ∧
    (5 : Nat) ∉ child_destroy ⟨2, false, none, some 5⟩ [5] :=
  ⟨(rekeyed_destroy_keeps_policy ⟨1, false, none, some 5⟩ 2 5 [5]).1,
   (rekeyed_destroy_keeps_policy ⟨2, false, none, some 5⟩ 2 5 [5]).2 rfl rfl⟩

end ChildSa
